import Mathlib

/-
  Verification of the dynamic reverse-proxy core (Go sources):
  service registry with round-robin selection, TLS ClientHello SNI parser,
  caching L7 HTTP forwarder, and the control-plane registration handler.

  Modelling conventions:
  * Go byte slices are List Nat (each element a byte value).
  * Go maps (sync.Map) are association lists keyed by String.  The pool of
    backends kept per selector is an unordered set in the source (a
    sync.Map used for its keys); it is represented here as a deduplicated
    list in registration order, a canonical set representation.  Go leaves
    the iteration order of sync.Map.Range unspecified, so the slice that
    getNextBackend builds from the pool may come back in any order:
    getNextBackendWithOrder takes that order as an explicit parameter,
    and getNextBackend is the special case that reads the pool in its
    stored order.  Results proved against getNextBackend do not depend on
    which order the representation uses; order-sensitive behaviour is
    analysed through getNextBackendWithOrder.
  * A Go slice access data[i] that sits behind an explicit bounds check in
    the source is modelled with List.getD; an unchecked access is modelled
    with getElem? where a missing element produces a distinguished panic
    outcome, mirroring the Go runtime panic on out-of-range indexing.
-/

/-- Store a key/value pair in an association list, replacing the binding if
the key is present and appending it otherwise (sync.Map.Store on the
association-list representation). -/
def storeA {α : Type} (m : List (String × α)) (k : String) (v : α) : List (String × α) :=
  match m with
  | [] => [(k, v)]
  | (k1, v1) :: t => if k1 == k then (k, v) :: t else (k1, v1) :: storeA t k v

/-- Proxy configuration: selector-keyed backend pools, round-robin cursors
and the response cache (Config struct of the Go sources). -/
structure Config where
  backends : List (String × List String)
  backendIndices : List (String × Nat)
  cache : List (String × List Nat)
deriving DecidableEq

/-- The empty configuration (fresh Config in main). -/
def emptyConfig : Config := ⟨[], [], []⟩

/-- Go addBackend: LoadOrStore the pool for the selector, then Store the
backend into it (idempotent insert into the pool set; the representation
records members in registration order). -/
def addBackend (c : Config) (sni backend : String) : Config :=
  let pool := (c.backends.lookup sni).getD []
  let pool2 := if backend ∈ pool then pool else pool ++ [backend]
  { c with backends := storeA c.backends sni pool2 }

/-- Go removeBackend: delete the backend from the selector pool if the
selector is present; the round-robin cursor is left untouched. -/
def removeBackend (c : Config) (sni backend : String) : Config :=
  match c.backends.lookup sni with
  | none => c
  | some pool => { c with backends := storeA c.backends sni (pool.erase backend) }

/-- Outcome of getNextBackend: a backend plus updated state, the
no-backends error, or a Go runtime panic from out-of-range indexing. -/
inductive NextResult where
  | ok (backend : String) (c : Config)
  | err
  | panic
deriving DecidableEq

/-- Go getNextBackend: look up the pool, collect it to a slice, read the
round-robin cursor (LoadOrStore default 0), index the slice and store the
incremented cursor modulo the pool size.  Indexing out of range is the Go
panic. -/
def getNextBackend (c : Config) (sni : String) : NextResult :=
  match c.backends.lookup sni with
  | none => .err
  | some backendList =>
    if backendList.length = 0 then .err
    else
      let index := (c.backendIndices.lookup sni).getD 0
      match backendList[index]? with
      | none => .panic
      | some backend =>
        .ok backend { c with backendIndices := storeA c.backendIndices sni ((index + 1) % backendList.length) }

/-- Go getNextBackend with the slice produced by sync.Map.Range made
explicit: Go does not specify the order in which Range visits the pool,
so backendList can be any arrangement of the pool and is passed in as
the order parameter; the rest is the source line for line (cursor read
with LoadOrStore default 0, indexing, cursor store modulo the slice
length). -/
def getNextBackendWithOrder (c : Config) (sni : String) (order : List String) : NextResult :=
  match c.backends.lookup sni with
  | none => .err
  | some _ =>
    if order.length = 0 then .err
    else
      let index := (c.backendIndices.lookup sni).getD 0
      match order[index]? with
      | none => .panic
      | some backend =>
        .ok backend { c with backendIndices := storeA c.backendIndices sni ((index + 1) % order.length) }

/-- Go getFromCache. -/
def getFromCache (c : Config) (key : String) : Option (List Nat) :=
  c.cache.lookup key

/-- Go storeInCache. -/
def storeInCache (c : Config) (key : String) (data : List Nat) : Config :=
  { c with cache := storeA c.cache key data }

/-- State after one Next call (unchanged if the call does not succeed). -/
def afterNext (c : Config) (sni : String) : Config :=
  match getNextBackend c sni with
  | .ok _ c2 => c2
  | _ => c

/-- Result of parseTLSClientHello: the server name bytes, a parse error
with the Go error message, or a Go runtime panic. -/
inductive ParseResult where
  | ok (hostName : List Nat)
  | err (msg : String)
  | panic
deriving DecidableEq

/-- Read a 16-bit big-endian value the way the Go source does
(int(data[i])<<8 | int(data[i+1])); none models the out-of-range panic. -/
def read2 (data : List Nat) (i : Nat) : Option Nat :=
  match data[i]?, data[i + 1]? with
  | some hi, some lo => some (hi <<< 8 ||| lo)
  | _, _ => none

/-- The extension-walking loop of parseTLSClientHello.  offset points at
the next extension header, endPos is the end of the extensions region as
computed before the loop.  On the server-name extension (type 0) the Go
code reads the inner name length at payload offsets 3 and 4 and returns
the name bytes; other extensions are skipped by their declared length. -/
def parseExtensions (data : List Nat) (offset endPos : Nat) : ParseResult :=
  if _h4 : offset + 4 ≤ endPos then
    match read2 data offset, read2 data (offset + 2) with
    | some extType, some extLen =>
      if offset + 4 + extLen > endPos then .err ("extension length exceeds data size")
      else if extType = 0 then
        match read2 data (offset + 4 + 3) with
        | some sniLen =>
          if offset + 4 + 5 + sniLen > endPos then .err ("invalid SNI length")
          else if offset + 4 + 5 + sniLen ≤ data.length then
            .ok ((data.drop (offset + 4 + 5)).take sniLen)
          else .panic
        | none => .panic
      else parseExtensions data (offset + 4 + extLen) endPos
    | _, _ => .panic
  else .err ("SNI not found in ClientHello")
termination_by endPos - offset
decreasing_by omega

/-- Go parseTLSClientHello: record-layer checks, fixed-prefix skip to
offset 43, variable-length session id / cipher suites / compression
methods skips, then the extension walk. -/
def parseTLSClientHello (data : List Nat) : ParseResult :=
  if data.length < 5 then .err ("data too short for TLS handshake")
  else if data.getD 0 0 ≠ 0x16 then .err ("not a TLS handshake")
  else if data.getD 1 0 ≠ 0x03 ∨
          (data.getD 2 0 ≠ 0x01 ∧ data.getD 2 0 ≠ 0x02 ∧ data.getD 2 0 ≠ 0x03) then
    .err ("unsupported TLS version")
  else
    let recordLen := data.getD 3 0 <<< 8 ||| data.getD 4 0
    if data.length - 5 < recordLen then .err ("incomplete handshake record")
    else
      match data[5]? with
      | none => .panic
      | some handshakeType =>
        if handshakeType ≠ 0x01 then .err ("not a ClientHello message")
        else if data.length < 43 then .err ("invalid ClientHello message")
        else
          match data[43]? with
          | none => .panic
          | some sessionIDLen =>
            let offset1 := 43 + 1 + sessionIDLen
            if data.length < offset1 then .err ("invalid ClientHello session ID")
            else
              match read2 data offset1 with
              | none => .panic
              | some cipherSuitesLen =>
                let offset2 := offset1 + 2 + cipherSuitesLen
                if data.length < offset2 then .err ("invalid ClientHello cipher suites")
                else
                  match data[offset2]? with
                  | none => .panic
                  | some compressionMethodsLen =>
                    let offset3 := offset2 + 1 + compressionMethodsLen
                    if data.length < offset3 then .err ("invalid ClientHello compression methods")
                    else
                      match read2 data offset3 with
                      | none => .panic
                      | some extensionsLen =>
                        let offset4 := offset3 + 2
                        if data.length < offset4 + extensionsLen then
                          .err ("extensions length exceeds data size")
                        else parseExtensions data offset4 (offset4 + extensionsLen)

/-- Big-endian 16-bit encoding of a length or type field. -/
def be16 (n : Nat) : List Nat := [n / 256, n % 256]

/-- Big-endian 24-bit encoding (handshake body length). -/
def be3 (n : Nat) : List Nat := [n / 65536, n / 256 % 256, n % 256]

/-- Wire form of one extension: type, payload length, payload. -/
def serializeExt (e : Nat × List Nat) : List Nat := be16 e.1 ++ be16 e.2.length ++ e.2

/-- Wire form of a list of extensions. -/
def extsJoin (es : List (Nat × List Nat)) : List Nat := (es.map serializeExt).flatten

/-- RFC 6066 server_name extension carrying a single host_name entry:
type 0, extension length, server_name_list length, name_type 0, host name
length, host name bytes. -/
def sniExtension (host : List Nat) : List Nat :=
  be16 0 ++ be16 (5 + host.length) ++ be16 (3 + host.length) ++ [0] ++ be16 host.length ++ host

/-- ClientHello extensions block: arbitrary non-SNI extensions, the
server_name extension, then arbitrary further extensions. -/
def chExts (preE postE : List (Nat × List Nat)) (host : List Nat) : List Nat :=
  extsJoin preE ++ sniExtension host ++ extsJoin postE

/-- ClientHello body from the session id onward: session id, cipher
suites, compression methods, extensions, each with its length field. -/
def chBody (sid cs cm exts : List Nat) : List Nat :=
  [sid.length] ++ sid ++ be16 cs.length ++ cs ++ [cm.length] ++ cm ++ be16 exts.length ++ exts

/-- A valid TLS ClientHello record: record header (type 22, version 3.x,
record length), handshake header (type 1, length), legacy version, 32
random bytes, then the body.  The record length is 38 + body length and
the handshake body length is 34 + body length, both exact. -/
def mkClientHello (minor : Nat) (random sid cs cm : List Nat)
    (preE postE : List (Nat × List Nat)) (host : List Nat) : List Nat :=
  let body := chBody sid cs cm (chExts preE postE host)
  [0x16, 0x03, minor] ++ be16 (38 + body.length) ++ [0x01] ++ be3 (34 + body.length) ++
    [0x03, minor] ++ random ++ body

/-- Bytes of an http.Error message body (injective encoding of the Go
string written to the response). -/
def strBytes (s : String) : List Nat := s.data.map Char.toNat

/-- An incoming HTTP request as seen by handleHTTPRequest: r.Host,
r.Method, r.URL.String() (path plus query), r.URL.Path, body and header.
-/
structure HRequest where
  host : String
  method : String
  urlString : String
  urlPath : String
  body : List Nat
  header : List (String × String)
deriving DecidableEq

/-- The upstream request built with http.NewRequest plus the header
assignment req.Header = r.Header. -/
structure UpstreamRequest where
  method : String
  url : String
  body : List Nat
  header : List (String × String)
deriving DecidableEq

/-- Behaviour of the upstream backend for one client.Do call: a transport
failure, or a response with status, headers and body. -/
inductive Upstream where
  | failure
  | success (status : Nat) (header : List (String × String)) (body : List Nat)
deriving DecidableEq

/-- What one handleHTTPRequest invocation produced: the response status
and body written to the client, the configuration afterwards, and the
upstream request passed to client.Do (none when no upstream call was
made). -/
structure HandleOutcome where
  status : Nat
  body : List Nat
  cfg : Config
  upstreamCall : Option UpstreamRequest
deriving DecidableEq

/-- handleHTTPRequest either completes with an outcome or panics inside
getNextBackend. -/
inductive HandleResult where
  | ok (o : HandleOutcome)
  | panic
deriving DecidableEq

/-- The cache key built by the caching L7 forwarder:
fmt.Sprintf with host and r.URL.String() — the method is not part of it. -/
def cacheKey (r : HRequest) : String := r.host ++ ":" ++ r.urlString

/-- Go handleHTTPRequest of the caching L7 forwarder: cache lookup keyed
on host and URL; on hit write the cached bytes (implicit status 200) and
return; on miss pick a backend round-robin (503 if none), build the
upstream request from method, backend URL + r.URL.Path, body and the
client header set, call the backend (502 on transport error), read the
body, cache it under the key, and relay status and body. -/
def handleHTTPRequest (c : Config) (r : HRequest) (up : Upstream) : HandleResult :=
  let key := cacheKey r
  match getFromCache c key with
  | some cachedResponse => .ok ⟨200, cachedResponse, c, none⟩
  | none =>
    match getNextBackend c r.host with
    | .err => .ok ⟨503, strBytes ("No backend available"), c, none⟩
    | .panic => .panic
    | .ok backendURL c1 =>
      let req : UpstreamRequest := ⟨r.method, backendURL ++ r.urlPath, r.body, r.header⟩
      match up with
      | .failure => .ok ⟨502, strBytes ("Failed to connect to backend"), c1, some req⟩
      | .success st _hdrs respBody =>
        .ok ⟨st, respBody, storeInCache c1 key respBody, some req⟩

/-- The decoded JSON payload of a registration request: either the decode
failed, or it produced the (possibly empty) name and address fields. -/
inductive RegPayload where
  | malformed
  | fields (name : String) (address : String)
deriving DecidableEq

/-- Go startRegistrationServer handler for POST /register: 405 on
non-POST, 400 on JSON decode error or an empty field, otherwise register
the backend and answer 200 with the confirmation text. -/
def registerHandler (c : Config) (method : String) (p : RegPayload) : Nat × String × Config :=
  if method ≠ "POST" then (405, "Invalid request method", c)
  else
    match p with
    | .malformed => (400, "Invalid JSON payload", c)
    | .fields name address =>
      if name = "" ∨ address = "" then (400, "Name and Address are required", c)
      else (200, "Backend " ++ name ++ " registered successfully", addBackend c name address)

/-- The upstream request made by a handler invocation, if any. -/
def upstreamOf (h : HandleResult) : Option UpstreamRequest :=
  match h with
  | .ok o => o.upstreamCall
  | .panic => none

/-- Registry with A and B registered for selector h. -/
def cfgAB : Config := addBackend (addBackend emptyConfig "h" "A") "h" "B"

/-- cfgAB with the round-robin cursor for h at 1. -/
def cfgAB1 : Config := ⟨[("h", ["A", "B"])], [("h", 1)], []⟩

/-- cfgAB with the round-robin cursor for h back at 0. -/
def cfgAB2 : Config := ⟨[("h", ["A", "B"])], [("h", 0)], []⟩

/-- Registry with one backend for selector h. -/
def cfgH : Config := addBackend emptyConfig "h" "http://b"

/-- cfgH after its round-robin cursor for h has been initialised by one
Next call. -/
def cfgH1 : Config := { cfgH with backendIndices := [("h", 0)] }

/-- A GET request for /x with Host h. -/
def getReq : HRequest := ⟨"h", "GET", "/x", "/x", [], []⟩

/-- A POST request for the same Host and URL as getReq. -/
def postReq : HRequest := ⟨"h", "POST", "/x", "/x", [17], []⟩

/-- A GET request for /x with query string a=1: URL.String() carries the
query, URL.Path does not. -/
def queryReq : HRequest := ⟨"h", "GET", "/x?a=1", "/x", [], []⟩

/-- The outcome of serving getReq against cfgH with an upstream that
responds 200 with body [9]. -/
def o5get : HandleOutcome :=
  ⟨200, [9], storeInCache { cfgH with backendIndices := storeA cfgH.backendIndices "h" 0 } "h:/x" [9],
    some ⟨"GET", "http://b/x", [], []⟩⟩

/-- cfgAfterGet: the configuration after a successful GET /x through the
caching forwarder (its response now cached under h:/x). -/
def cfgAfterGet : Config :=
  match handleHTTPRequest cfgH getReq (Upstream.success 200 [] [9]) with
  | .ok o => o.cfg
  | .panic => emptyConfig

/-- A concrete valid ClientHello with SNI bytes for the host name ab. -/
def chExample : List Nat := mkClientHello 1 (List.replicate 32 0) [] [] [] [] [] [97, 98]

/-- Looking up the key just stored finds the stored value. -/
theorem lookup_storeA_self {α : Type} (m : List (String × α)) (k : String) (v : α) :
    (storeA m k v).lookup k = some v := by
  induction m with
  | nil => simp [storeA]
  | cons hd t ih =>
    obtain ⟨k1, v1⟩ := hd
    by_cases h : k1 = k
    · simp [storeA, h]
    · have hb : (k1 == k) = false := by simp [h]
      have hb2 : (k == k1) = false := by
        simp only [beq_eq_false_iff_ne, ne_eq]
        intro hkk
        exact h hkk.symm
      simp [storeA, hb, hb2, List.lookup, ih]

/-- Storing twice at the same key is the same as storing the second value
once. -/
theorem storeA_storeA {α : Type} (m : List (String × α)) (k : String) (v v2 : α) :
    storeA (storeA m k v) k v2 = storeA m k v2 := by
  induction m with
  | nil => simp [storeA]
  | cons hd t ih =>
    obtain ⟨k1, v1⟩ := hd
    by_cases h : k1 = k
    · simp [storeA, h]
    · have hb : (k1 == k) = false := by simp [h]
      simp [storeA, hb, ih]

/-- The pool addBackend leaves for the selector it touched. -/
theorem addBackend_lookup (c : Config) (s b : String) :
    (addBackend c s b).backends.lookup s =
      some (if b ∈ (c.backends.lookup s).getD [] then (c.backends.lookup s).getD []
            else (c.backends.lookup s).getD [] ++ [b]) := by
  simp [addBackend, lookup_storeA_self]

/-- C9: addBackend is idempotent — registering the same (selector,
backend) pair twice leaves the configuration exactly as one registration
does, and registering into an absent selector creates its pool as the
singleton list. -/
theorem addBackend_idempotent (c : Config) (s b : String) :
    addBackend (addBackend c s b) s b = addBackend c s b ∧
    (c.backends.lookup s = none →
      (addBackend (addBackend c s b) s b).backends.lookup s = some [b]) := by
  set p0 := (c.backends.lookup s).getD [] with hp0
  set p2 := if b ∈ p0 then p0 else p0 ++ [b] with hp2
  have hmem2 : b ∈ p2 := by
    rw [hp2]
    by_cases h : b ∈ p0 <;> simp [h]
  have h1 : addBackend c s b = { c with backends := storeA c.backends s p2 } := rfl
  have hlook : (addBackend c s b).backends.lookup s = some p2 := by
    rw [h1]
    exact lookup_storeA_self c.backends s p2
  have hunf : addBackend (addBackend c s b) s b =
      { backends :=
          storeA (addBackend c s b).backends s
            (if b ∈ ((addBackend c s b).backends.lookup s).getD []
             then ((addBackend c s b).backends.lookup s).getD []
             else ((addBackend c s b).backends.lookup s).getD [] ++ [b]),
        backendIndices := (addBackend c s b).backendIndices,
        cache := (addBackend c s b).cache } := rfl
  have h2 : addBackend (addBackend c s b) s b =
      { c with backends := storeA (storeA c.backends s p2) s p2 } := by
    rw [hunf, hlook]
    simp only [Option.getD_some, if_pos hmem2]
    rw [h1]
  constructor
  · rw [h2, storeA_storeA]
    exact h1.symm
  · intro habs
    have hfin : (addBackend (addBackend c s b) s b).backends.lookup s = some p2 := by
      rw [h2]
      exact lookup_storeA_self (storeA c.backends s p2) s p2
    rw [hfin]
    have hp2b : p2 = [b] := by
      rw [hp2, hp0, habs]
      simp
    rw [hp2b]

/-- C9 witness: registering (h, A) twice from the empty registry equals
registering it once, and the resulting pool is exactly [A]. -/
theorem addBackend_idempotent_witness :
    addBackend (addBackend emptyConfig "h" "A") "h" "A" = addBackend emptyConfig "h" "A" ∧
    (addBackend (addBackend emptyConfig "h" "A") "h" "A").backends.lookup "h" = some ["A"] :=
  ⟨(addBackend_idempotent emptyConfig "h" "A").1,
   (addBackend_idempotent emptyConfig "h" "A").2 (by decide)⟩

/-- C8: the registration handler answers 405 to every non-POST request,
400 to a malformed JSON body or an empty name or address (leaving the
registry untouched in all those cases), and 200 with the confirmation
text on a well-formed POST, in which case it registers the backend. -/
theorem registerHandler_spec :
    (∀ (c : Config) (m : String) (p : RegPayload), m ≠ "POST" →
       registerHandler c m p = (405, "Invalid request method", c)) ∧
    (∀ (c : Config), registerHandler c "POST" RegPayload.malformed =
       (400, "Invalid JSON payload", c)) ∧
    (∀ (c : Config) (n a : String), n = "" ∨ a = "" →
       registerHandler c "POST" (RegPayload.fields n a) =
         (400, "Name and Address are required", c)) ∧
    (∀ (c : Config) (n a : String), n ≠ "" → a ≠ "" →
       registerHandler c "POST" (RegPayload.fields n a) =
         (200, "Backend " ++ n ++ " registered successfully", addBackend c n a)) := by
  refine ⟨?_, ?_, ?_, ?_⟩
  · intro c m p hm
    simp [registerHandler, hm]
  · intro c
    simp [registerHandler]
  · intro c n a h
    simp [registerHandler, h]
  · intro c n a hn ha
    have h : ¬ (n = "" ∨ a = "") := by
      intro h
      cases h with
      | inl h => exact hn h
      | inr h => exact ha h
    simp [registerHandler, h]

/-- C8 witness: GET gets 405; POST with empty name gets 400 and does not
change the registry; a well-formed POST gets 200 and registers. -/
theorem registerHandler_spec_witness :
    registerHandler emptyConfig "GET" (RegPayload.fields "svc" "1.2.3.4:80") =
      (405, "Invalid request method", emptyConfig) ∧
    registerHandler emptyConfig "POST" (RegPayload.fields "" "1.2.3.4:80") =
      (400, "Name and Address are required", emptyConfig) ∧
    registerHandler emptyConfig "POST" (RegPayload.fields "svc" "1.2.3.4:80") =
      (200, "Backend " ++ "svc" ++ " registered successfully", addBackend emptyConfig "svc" "1.2.3.4:80") :=
  ⟨registerHandler_spec.1 emptyConfig "GET" (RegPayload.fields "svc" "1.2.3.4:80") (by decide),
   registerHandler_spec.2.2.1 emptyConfig "" "1.2.3.4:80" (Or.inl rfl),
   registerHandler_spec.2.2.2 emptyConfig "svc" "1.2.3.4:80" (by decide) (by decide)⟩

/-- C2 refutation: after Register(h,A), Register(h,B), one Next(h) and
Deregister(h,B), the stored cursor is 1 while the pool has length 1, so
the next getNextBackend indexes out of range — the Go runtime panic. -/
theorem removeBackend_stale_cursor_panics :
    getNextBackend
      (removeBackend (afterNext (addBackend (addBackend emptyConfig "h" "A") "h" "B") "h") "h" "B")
      "h" = NextResult.panic := by decide

/-- C10 refutation: on the 5-byte input 16 03 01 00 00 (a handshake
record header with record length 0) the parser reads data[5] out of
bounds — the Go runtime panic — instead of returning an error. -/
theorem parseTLSClientHello_oob_panic :
    parseTLSClientHello [0x16, 0x03, 0x01, 0x00, 0x00] = ParseResult.panic := by decide

/-- C4 refutation: the cache key is host and URL only, so a GET and a
POST with the same Host and URL share one cache entry, and a response
cached for the GET is served to the POST (status 200 with the GET body,
no upstream call), even though the upstream would fail. -/
theorem cacheKey_ignores_method :
    cacheKey getReq = cacheKey postReq ∧
    getReq.method ≠ postReq.method ∧
    cacheKey getReq = "h:/x" ∧
    handleHTTPRequest cfgAfterGet postReq Upstream.failure =
      HandleResult.ok ⟨200, [9], cfgAfterGet, none⟩ := by decide

/-- C6 refutation: on a cache miss the upstream request is built from the
backend URL and r.URL.Path alone; for GET /x?a=1 the upstream URL is
http://b/x — the query string is dropped, unlike the claimed
backend + path + query. -/
theorem upstream_drops_query :
    upstreamOf (handleHTTPRequest cfgH queryReq (Upstream.success 200 [] [7])) =
      some ⟨"GET", "http://b/x", [], []⟩ ∧
    "http://b/x" ≠ "http://b" ++ queryReq.urlString := by decide

/-- Storing into the cache makes the stored bytes the lookup result for
that key. -/
theorem getFromCache_store (c : Config) (key : String) (v : List Nat) :
    getFromCache (storeInCache c key v) key = some v := by
  simp [getFromCache, storeInCache, lookup_storeA_self]

/-- C5: the caching forwarder answers a repeat request from the cache.
If a first request went upstream and the upstream answered, any second
request with the same Host, method and URL is answered 200 with the
recorded body, leaves the configuration unchanged, and makes no upstream
call. -/
theorem cacheHit_serves_cached (cfg : Config) (r r2 : HRequest) (st : Nat)
    (hdrs : List (String × String)) (b : List Nat) (up2 : Upstream) (o : HandleOutcome)
    (h1 : handleHTTPRequest cfg r (Upstream.success st hdrs b) = .ok o)
    (h2 : o.upstreamCall.isSome = true)
    (hh : r2.host = r.host) (hu : r2.urlString = r.urlString) (_hm : r2.method = r.method) :
    handleHTTPRequest o.cfg r2 up2 = .ok ⟨200, b, o.cfg, none⟩ := by
  have hkey : cacheKey r2 = cacheKey r := by
    simp [cacheKey, hh, hu]
  cases hc : getFromCache cfg (cacheKey r) with
  | some v =>
    simp only [handleHTTPRequest, hc] at h1
    have ho : o = ⟨200, v, cfg, none⟩ := by
      cases h1
      rfl
    rw [ho] at h2
    simp at h2
  | none =>
    simp only [handleHTTPRequest, hc] at h1
    cases hn : getNextBackend cfg r.host with
    | err =>
      rw [hn] at h1
      have ho : o = ⟨503, strBytes ("No backend available"), cfg, none⟩ := by
        cases h1
        rfl
      rw [ho] at h2
      simp at h2
    | panic =>
      rw [hn] at h1
      cases h1
    | ok burl c1 =>
      rw [hn] at h1
      have ho : o = ⟨st, b, storeInCache c1 (cacheKey r) b,
          some ⟨r.method, burl ++ r.urlPath, r.body, r.header⟩⟩ := by
        cases h1
        rfl
      rw [ho]
      simp only [handleHTTPRequest, hkey, getFromCache_store]

/-- C5 witness: serving GET /x against cfgH with a 200 body [9] yields
the outcome o5get; replaying the identical request against the resulting
state answers 200 with body [9] from the cache, with no upstream call,
even though the upstream would now fail. -/
theorem cacheHit_serves_cached_witness :
    handleHTTPRequest cfgH getReq (Upstream.success 200 [] [9]) = HandleResult.ok o5get ∧
    handleHTTPRequest o5get.cfg getReq Upstream.failure = .ok ⟨200, [9], o5get.cfg, none⟩ :=
  ⟨by decide,
   cacheHit_serves_cached cfgH getReq getReq 200 [] [9] Upstream.failure o5get
     (by decide) (by decide) rfl rfl rfl⟩

/-- C7: routing and upstream failures map to distinct statuses.  On a
cache miss with no backend registered for the Host the forwarder answers
503 with its own error text and makes no upstream call; on a cache miss
where a backend is chosen but the transport fails it answers 502 with its
own error text; neither forwards any backend response. -/
theorem handler_error_statuses :
    (∀ (cfg : Config) (r : HRequest) (up : Upstream),
       getFromCache cfg (cacheKey r) = none →
       getNextBackend cfg r.host = NextResult.err →
       handleHTTPRequest cfg r up =
         .ok ⟨503, strBytes ("No backend available"), cfg, none⟩) ∧
    (∀ (cfg : Config) (r : HRequest) (b : String) (c1 : Config),
       getFromCache cfg (cacheKey r) = none →
       getNextBackend cfg r.host = NextResult.ok b c1 →
       handleHTTPRequest cfg r Upstream.failure =
         .ok ⟨502, strBytes ("Failed to connect to backend"), c1,
              some ⟨r.method, b ++ r.urlPath, r.body, r.header⟩⟩) := by
  constructor
  · intro cfg r up hc hn
    simp only [handleHTTPRequest, hc, hn]
  · intro cfg r b c1 hc hn
    simp only [handleHTTPRequest, hc, hn]

/-- C7 witness: with nothing registered a GET gets 503 and no upstream
call; with a backend registered and a failing transport it gets 502, the
attempted upstream request being GET http://b/x. -/
theorem handler_error_statuses_witness :
    handleHTTPRequest emptyConfig getReq Upstream.failure =
      .ok ⟨503, strBytes ("No backend available"), emptyConfig, none⟩ ∧
    handleHTTPRequest cfgH getReq Upstream.failure =
      .ok ⟨502, strBytes ("Failed to connect to backend"), cfgH1,
           some ⟨"GET", "http://b/x", [], []⟩⟩ :=
  ⟨handler_error_statuses.1 emptyConfig getReq Upstream.failure (by decide) (by decide),
   handler_error_statuses.2 cfgH getReq "http://b" cfgH1 (by decide) (by decide)⟩

/-- getNextBackend is getNextBackendWithOrder applied to the pool in its
stored order: the fixed-order translation is one admissible resolution of
the unspecified Range order. -/
theorem getNextBackend_eq_withOrder (c : Config) (sni : String) (p : List String)
    (hp : c.backends.lookup sni = some p) :
    getNextBackend c sni = getNextBackendWithOrder c sni p := by
  simp only [getNextBackend, getNextBackendWithOrder, hp]

/-- Witness for getNextBackend_eq_withOrder at a concrete registry. -/
theorem getNextBackend_eq_withOrder_witness :
    cfgAB.backends.lookup "h" = some ["A", "B"] ∧
    getNextBackend cfgAB "h" = getNextBackendWithOrder cfgAB "h" ["A", "B"] :=
  ⟨by decide, getNextBackend_eq_withOrder cfgAB "h" ["A", "B"] (by decide)⟩

/-- C1 refutation: the pool for a selector is a sync.Map used as an
unordered set, and getNextBackend rebuilds backendList with Range on
every call, so its order is unspecified and may differ between calls.
With A and B registered for h, the Range orders [A, B] and then [B, A]
are both arrangements of the pool, and under them two successive Next
calls return A both times: Next does not cycle through the pool in
registration order with period 2, and over 1 times the pool size calls
A is returned twice and B never, so the claimed fairness law fails. -/
theorem roundRobin_defeated_by_range_order :
    (cfgAB.backends.lookup "h").getD [] = ["A", "B"] ∧
    List.Perm ["B", "A"] ["A", "B"] ∧
    getNextBackendWithOrder cfgAB "h" ["A", "B"] = NextResult.ok "A" cfgAB1 ∧
    getNextBackendWithOrder cfgAB1 "h" ["B", "A"] = NextResult.ok "A" cfgAB2 := by
  refine ⟨by decide, by decide, by decide, by decide⟩

/-- Big-endian byte recombination: for a byte b, a <<< 8 ||| b is
256 * a + b. -/
theorem shiftLeft8_lor (a b : Nat) (hb : b < 256) : a <<< 8 ||| b = 256 * a + b := by
  apply Nat.eq_of_testBit_eq
  intro j
  rw [Nat.testBit_lor, Nat.testBit_shiftLeft]
  by_cases hj : j < 8
  · have h8 : ¬ (8 ≤ j) := by omega
    have hmod : (256 * a + b) % 2 ^ 8 = b := by
      have hcomm : 256 * a + b = b + a * 2 ^ 8 := by ring
      rw [hcomm, Nat.add_mul_mod_self_right]
      exact Nat.mod_eq_of_lt hb
    have h1 : Nat.testBit ((256 * a + b) % 2 ^ 8) j =
        (decide (j < 8) && Nat.testBit (256 * a + b) j) :=
      Nat.testBit_mod_two_pow (256 * a + b) 8 j
    rw [hmod] at h1
    simp only [hj] at h1
    simp [h8, h1]
  · have h8 : 8 ≤ j := by omega
    have hbj : Nat.testBit b j = false := by
      apply Nat.testBit_lt_two_pow
      calc b < 256 := hb
        _ = 2 ^ 8 := by norm_num
        _ ≤ 2 ^ j := Nat.pow_le_pow_right (by norm_num) h8
    have hdiv : (256 * a + b) / 2 ^ j = a / 2 ^ (j - 8) := by
      have hj8 : 2 ^ j = 2 ^ 8 * 2 ^ (j - 8) := by
        rw [← pow_add]
        congr 1
        omega
      rw [hj8, ← Nat.div_div_eq_div_mul]
      have hfirst : (256 * a + b) / 2 ^ 8 = a := by
        have hcomm : 256 * a + b = b + a * 2 ^ 8 := by ring
        rw [hcomm, Nat.add_mul_div_right _ _ (by norm_num : (0:Nat) < 2 ^ 8)]
        rw [Nat.div_eq_of_lt (by norm_num at hb ⊢; omega), Nat.zero_add]
      rw [hfirst]
    have hR : Nat.testBit (256 * a + b) j = Nat.testBit a (j - 8) := by
      rw [Nat.testBit_to_div_mod, Nat.testBit_to_div_mod, hdiv]
    rw [hR, hbj]
    simp [h8]

/-- Byte at the split point of an append. -/
theorem getElem?_at (head : List Nat) (x : Nat) (tail : List Nat) (i : Nat)
    (h : i = head.length) : (head ++ x :: tail)[i]? = some x := by
  subst h
  rw [List.getElem?_append_right (Nat.le_refl _)]
  simp

/-- Two-byte read at the split point of an append. -/
theorem read2_at (head : List Nat) (a b : Nat) (tail : List Nat) (i : Nat)
    (h : i = head.length) : read2 (head ++ a :: b :: tail) i = some (a <<< 8 ||| b) := by
  have h1 : (head ++ a :: b :: tail)[i]? = some a := getElem?_at head a (b :: tail) i h
  have h2 : (head ++ a :: b :: tail)[i + 1]? = some b := by
    have hassoc : head ++ a :: b :: tail = (head ++ [a]) ++ b :: tail := by simp
    rw [hassoc]
    apply getElem?_at
    simp [h]
  simp [read2, h1, h2]

/-- Reading back a be16-encoded field recovers the encoded value. -/
theorem read2_be16 (head : List Nat) (n : Nat) (tail : List Nat) (i : Nat)
    (h : i = head.length) : read2 (head ++ be16 n ++ tail) i = some n := by
  have hassoc : head ++ be16 n ++ tail = head ++ (n / 256) :: (n % 256) :: tail := by
    simp [be16]
  rw [hassoc, read2_at head _ _ tail i h,
      shiftLeft8_lor _ _ (Nat.mod_lt _ (by norm_num)), Nat.div_add_mod]

theorem parseExtensions_finds (data : List Nat) (host post : List Nat) :
    ∀ (es : List (Nat × List Nat)) (head : List Nat),
      data = head ++ (extsJoin es ++ (sniExtension host ++ post)) →
      (∀ e ∈ es, e.1 ≠ 0) →
      parseExtensions data head.length data.length = .ok host := by
  intro es
  induction es with
  | nil =>
    intro head hdata _
    subst hdata
    set D := head ++ (extsJoin [] ++ (sniExtension host ++ post)) with hD
    have hDs : D = head ++ (sniExtension host ++ post) := by
      simp [hD, extsJoin]
    have hlen : D.length = head.length + (9 + (host.length + post.length)) := by
      rw [hDs]
      simp [sniExtension, be16]
      try omega
    have hr1 : read2 D head.length = some 0 := by
      have hT : D = head ++ be16 0 ++ (be16 (5 + host.length) ++ (be16 (3 + host.length) ++
          ([0] ++ (be16 host.length ++ (host ++ post))))) := by
        rw [hDs]
        simp [sniExtension]
      rw [hT]
      exact read2_be16 head 0 _ head.length rfl
    have hr2 : read2 D (head.length + 2) = some (5 + host.length) := by
      have hT : D = (head ++ be16 0) ++ be16 (5 + host.length) ++ (be16 (3 + host.length) ++
          ([0] ++ (be16 host.length ++ (host ++ post)))) := by
        rw [hDs]
        simp [sniExtension]
      rw [hT]
      exact read2_be16 (head ++ be16 0) (5 + host.length) _ (head.length + 2)
        (by simp [be16])
    have hr3 : read2 D (head.length + 4 + 3) = some host.length := by
      have hT : D = (head ++ be16 0 ++ be16 (5 + host.length) ++ be16 (3 + host.length) ++ [0]) ++
          be16 host.length ++ (host ++ post) := by
        rw [hDs]
        simp [sniExtension]
      rw [hT]
      refine read2_be16 _ host.length _ (head.length + 4 + 3) ?_
      simp [be16]
      try omega
    have hdrop : (D.drop (head.length + 4 + 5)).take host.length = host := by
      have hT : D = (head ++ be16 0 ++ be16 (5 + host.length) ++ be16 (3 + host.length) ++
          [0] ++ be16 host.length) ++ (host ++ post) := by
        rw [hDs]
        simp [sniExtension]
      have hplen : (head ++ be16 0 ++ be16 (5 + host.length) ++ be16 (3 + host.length) ++
          [0] ++ be16 host.length).length = head.length + 4 + 5 := by
        simp [be16]
        try omega
      rw [hT, List.drop_left' hplen, List.take_left' rfl]
    have hgt1 : ¬ (head.length + 4 + (5 + host.length) > D.length) := by omega
    have hgt2 : ¬ (head.length + 4 + 5 + host.length > D.length) := by omega
    have hle3 : head.length + 4 + 5 + host.length ≤ D.length := by omega
    rw [parseExtensions, dif_pos (by omega : head.length + 4 ≤ D.length), hr1, hr2]
    simp [hgt1, hgt2, hle3, hr3, hdrop]
  | cons e rest ih =>
    intro head hdata hty
    have hne0 : e.1 ≠ 0 := hty e (by simp)
    subst hdata
    set D := head ++ (extsJoin (e :: rest) ++ (sniExtension host ++ post)) with hD
    have hDs : D = head ++ (serializeExt e ++ (extsJoin rest ++ (sniExtension host ++ post))) := by
      simp [hD, extsJoin]
    have hlen : D.length =
        head.length + (4 + e.2.length) + ((extsJoin rest).length + (9 + (host.length + post.length))) := by
      rw [hDs]
      simp [serializeExt, be16, sniExtension]
      try omega
    have hr1 : read2 D head.length = some e.1 := by
      have hT : D = head ++ be16 e.1 ++ (be16 e.2.length ++
          (e.2 ++ (extsJoin rest ++ (sniExtension host ++ post)))) := by
        rw [hDs]
        simp [serializeExt]
      rw [hT]
      exact read2_be16 head e.1 _ head.length rfl
    have hr2 : read2 D (head.length + 2) = some e.2.length := by
      have hT : D = (head ++ be16 e.1) ++ be16 e.2.length ++
          (e.2 ++ (extsJoin rest ++ (sniExtension host ++ post))) := by
        rw [hDs]
        simp [serializeExt]
      rw [hT]
      exact read2_be16 (head ++ be16 e.1) e.2.length _ (head.length + 2) (by simp [be16])
    have hgt : ¬ (head.length + 4 + e.2.length > D.length) := by omega
    have hrec0 : parseExtensions D (head ++ serializeExt e).length D.length = .ok host := by
      apply ih (head ++ serializeExt e)
      · rw [hDs]
        simp
      · intro e2 he2
        exact hty e2 (by simp [he2])
    have hoff : head.length + 4 + e.2.length = (head ++ serializeExt e).length := by
      simp [serializeExt, be16]
      try omega
    rw [parseExtensions, dif_pos (by omega : head.length + 4 ≤ D.length), hr1, hr2]
    simp only [gt_iff_lt]
    rw [if_neg (by omega : ¬ (D.length < head.length + 4 + e.2.length)), if_neg hne0, hoff]
    exact hrec0

theorem parse_mkClientHello (minor : Nat) (random sid cs cm : List Nat)
    (preE postE : List (Nat × List Nat)) (host : List Nat)
    (hm : minor = 1 ∨ minor = 2 ∨ minor = 3)
    (hr : random.length = 32)
    (hpre : ∀ e ∈ preE, e.1 ≠ 0) :
    parseTLSClientHello (mkClientHello minor random sid cs cm preE postE host) = .ok host := by
  set E := chExts preE postE host with hE
  set B := chBody sid cs cm E with hB
  set D := mkClientHello minor random sid cs cm preE postE host with hD0
  have hBlen : B.length = 6 + sid.length + cs.length + cm.length + E.length := by
    rw [hB]
    simp [chBody, be16]
    omega
  have hcons : D = 22 :: 3 :: minor :: ((38 + B.length) / 256) :: ((38 + B.length) % 256) ::
      1 :: ((34 + B.length) / 65536) :: ((34 + B.length) / 256 % 256) :: ((34 + B.length) % 256) ::
      3 :: minor :: (random ++ B) := by
    rw [hD0, hB, hE]
    simp [mkClientHello, be16, be3]
  have hDlen : D.length = 43 + B.length := by
    rw [hcons]
    simp [hr]
    omega
  have g0 : D.getD 0 0 = 22 := by rw [hcons]; rfl
  have g1 : D.getD 1 0 = 3 := by rw [hcons]; rfl
  have g2 : D.getD 2 0 = minor := by rw [hcons]; rfl
  have g3 : D.getD 3 0 = (38 + B.length) / 256 := by rw [hcons]; rfl
  have g4 : D.getD 4 0 = (38 + B.length) % 256 := by rw [hcons]; rfl
  have h5 : D[5]? = some 1 := by rw [hcons]; rfl
  set F := [22, 3, minor] ++ be16 (38 + B.length) ++ [1] ++ be3 (34 + B.length) ++
      [3, minor] ++ random with hF
  have hFlen : F.length = 43 := by
    rw [hF]
    simp [be16, be3, hr]
  have hsplit1 : D = F ++ (sid.length :: (sid ++ (be16 cs.length ++ (cs ++ (cm.length ::
      (cm ++ (be16 E.length ++ E))))))) := by
    rw [hD0, hF, hB, hE]
    simp [mkClientHello, chBody, be16, be3]
  have h43 : D[43]? = some sid.length := by
    rw [hsplit1]
    exact getElem?_at F sid.length _ 43 hFlen.symm
  have hoffs1 : ¬ (D.length < 43 + 1 + sid.length) := by omega
  have hsplit2 : D = (F ++ sid.length :: sid) ++ be16 cs.length ++ (cs ++ (cm.length ::
      (cm ++ (be16 E.length ++ E)))) := by
    rw [hsplit1]
    simp
  have hP1len : 43 + 1 + sid.length = (F ++ sid.length :: sid).length := by
    simp [hFlen]
    omega
  have hreadcs : read2 D (43 + 1 + sid.length) = some cs.length := by
    rw [hsplit2]
    exact read2_be16 _ cs.length _ _ hP1len
  have hoffs2 : ¬ (D.length < 43 + 1 + sid.length + 2 + cs.length) := by omega
  have hsplit3 : D = (F ++ sid.length :: sid ++ be16 cs.length ++ cs) ++ (cm.length ::
      (cm ++ (be16 E.length ++ E))) := by
    rw [hsplit1]
    simp
  have hP2len : 43 + 1 + sid.length + 2 + cs.length =
      (F ++ sid.length :: sid ++ be16 cs.length ++ cs).length := by
    simp [hFlen, be16]
    omega
  have hreadcm : D[43 + 1 + sid.length + 2 + cs.length]? = some cm.length := by
    rw [hsplit3]
    exact getElem?_at _ cm.length _ _ hP2len
  have hoffs3 : ¬ (D.length < 43 + 1 + sid.length + 2 + cs.length + 1 + cm.length) := by omega
  have hsplit4 : D = (F ++ sid.length :: sid ++ be16 cs.length ++ cs ++ cm.length :: cm) ++
      be16 E.length ++ E := by
    rw [hsplit1]
    simp
  have hP3len : 43 + 1 + sid.length + 2 + cs.length + 1 + cm.length =
      (F ++ sid.length :: sid ++ be16 cs.length ++ cs ++ cm.length :: cm).length := by
    simp [hFlen, be16]
    omega
  have hreadext : read2 D (43 + 1 + sid.length + 2 + cs.length + 1 + cm.length) =
      some E.length := by
    rw [hsplit4]
    exact read2_be16 _ E.length _ _ hP3len
  have hoffs4 : ¬ (D.length < 43 + 1 + sid.length + 2 + cs.length + 1 + cm.length + 2 + E.length) := by
    have hElen2 : E.length = (extsJoin preE).length + (9 + host.length) + (extsJoin postE).length := by
      rw [hE]
      simp [chExts, sniExtension, be16]
      omega
    omega
  have hfinal : parseExtensions D (43 + 1 + sid.length + 2 + cs.length + 1 + cm.length + 2)
      (43 + 1 + sid.length + 2 + cs.length + 1 + cm.length + 2 + E.length) = .ok host := by
    have hP4 : 43 + 1 + sid.length + 2 + cs.length + 1 + cm.length + 2 =
        (F ++ sid.length :: sid ++ be16 cs.length ++ cs ++ cm.length :: cm ++ be16 E.length).length := by
      simp [hFlen, be16]
      omega
    have hend : 43 + 1 + sid.length + 2 + cs.length + 1 + cm.length + 2 + E.length = D.length := by
      omega
    rw [hend, hP4]
    apply parseExtensions_finds D host (extsJoin postE) preE _ ?_ hpre
    rw [hsplit4, hE]
    simp [chExts]
  have hc1 : ¬ (D.length < 5) := by omega
  have hc2 : ¬ (D.getD 0 0 ≠ 22) := by
    rw [g0]
    simp
  have hc3 : ¬ (D.getD 1 0 ≠ 3 ∨ (D.getD 2 0 ≠ 1 ∧ D.getD 2 0 ≠ 2 ∧ D.getD 2 0 ≠ 3)) := by
    rw [g1, g2]
    rcases hm with h | h | h <;> simp [h]
  have hrecval : D.getD 3 0 <<< 8 ||| D.getD 4 0 = 38 + B.length := by
    rw [g3, g4, shiftLeft8_lor _ _ (Nat.mod_lt _ (by norm_num)), Nat.div_add_mod]
  have hc4 : ¬ (D.length - 5 < D.getD 3 0 <<< 8 ||| D.getD 4 0) := by
    rw [hrecval]
    omega
  have hc6 : ¬ (D.length < 43) := by omega
  simp only [parseTLSClientHello]
  rw [if_neg hc1, if_neg hc2, if_neg hc3, if_neg hc4, h5]
  simp only []
  rw [if_neg (by simp : ¬ ((1:Nat) ≠ 1)), if_neg hc6, h43]
  simp only []
  rw [if_neg hoffs1, hreadcs]
  simp only []
  rw [if_neg hoffs2, hreadcm]
  simp only []
  rw [if_neg hoffs3, hreadext]
  simp only []
  rw [if_neg hoffs4]
  exact hfinal

theorem mk_cons_shape (minor : Nat) (random sid cs cm : List Nat)
    (preE postE : List (Nat × List Nat)) (host : List Nat) :
    mkClientHello minor random sid cs cm preE postE host =
      22 :: 3 :: minor ::
      ((38 + (chBody sid cs cm (chExts preE postE host)).length) / 256) ::
      ((38 + (chBody sid cs cm (chExts preE postE host)).length) % 256) ::
      1 :: ((34 + (chBody sid cs cm (chExts preE postE host)).length) / 65536) ::
      ((34 + (chBody sid cs cm (chExts preE postE host)).length) / 256 % 256) ::
      ((34 + (chBody sid cs cm (chExts preE postE host)).length) % 256) ::
      3 :: minor :: (random ++ chBody sid cs cm (chExts preE postE host)) := by
  simp [mkClientHello, be16, be3]

theorem mk_length (minor : Nat) (random sid cs cm : List Nat)
    (preE postE : List (Nat × List Nat)) (host : List Nat) (hr : random.length = 32) :
    (mkClientHello minor random sid cs cm preE postE host).length =
      43 + (chBody sid cs cm (chExts preE postE host)).length := by
  rw [mk_cons_shape]
  simp [hr]
  omega

theorem parse_take_short (minor : Nat) (random sid cs cm : List Nat)
    (preE postE : List (Nat × List Nat)) (host : List Nat)
    (hm : minor = 1 ∨ minor = 2 ∨ minor = 3)
    (hr : random.length = 32)
    (m : Nat) (hmlt : m < (mkClientHello minor random sid cs cm preE postE host).length) :
    parseTLSClientHello ((mkClientHello minor random sid cs cm preE postE host).take m) =
      .err ("data too short for TLS handshake") ∨
    parseTLSClientHello ((mkClientHello minor random sid cs cm preE postE host).take m) =
      .err ("incomplete handshake record") := by
  set B := chBody sid cs cm (chExts preE postE host) with hB
  set D := mkClientHello minor random sid cs cm preE postE host with hD0
  have hcons : D = 22 :: 3 :: minor :: ((38 + B.length) / 256) :: ((38 + B.length) % 256) ::
      1 :: ((34 + B.length) / 65536) :: ((34 + B.length) / 256 % 256) :: ((34 + B.length) % 256) ::
      3 :: minor :: (random ++ B) := by
    rw [hD0, hB]
    exact mk_cons_shape minor random sid cs cm preE postE host
  have hDlen : D.length = 43 + B.length := by
    rw [hD0, hB]
    exact mk_length minor random sid cs cm preE postE host hr
  by_cases h5m : m < 5
  · left
    have hlen : (D.take m).length = m := by
      rw [List.length_take]
      omega
    simp only [parseTLSClientHello]
    rw [if_pos (by rw [hlen]; exact h5m)]
  · right
    have h5le : 5 ≤ m := by omega
    have hlen : (D.take m).length = m := by
      rw [List.length_take]
      omega
    have hgd : ∀ i, i < m → (D.take m).getD i 0 = D.getD i 0 := by
      intro i hi
      rw [List.getD_eq_getElem?_getD, List.getD_eq_getElem?_getD, List.getElem?_take_of_lt hi]
    have g0 : (D.take m).getD 0 0 = 22 := by
      rw [hgd 0 (by omega), hcons]
      rfl
    have g1 : (D.take m).getD 1 0 = 3 := by
      rw [hgd 1 (by omega), hcons]
      rfl
    have g2 : (D.take m).getD 2 0 = minor := by
      rw [hgd 2 (by omega), hcons]
      rfl
    have g3 : (D.take m).getD 3 0 = (38 + B.length) / 256 := by
      rw [hgd 3 (by omega), hcons]
      rfl
    have g4 : (D.take m).getD 4 0 = (38 + B.length) % 256 := by
      rw [hgd 4 (by omega), hcons]
      rfl
    have hc2 : ¬ ((D.take m).getD 0 0 ≠ 22) := by
      rw [g0]
      simp
    have hc3 : ¬ ((D.take m).getD 1 0 ≠ 3 ∨
        ((D.take m).getD 2 0 ≠ 1 ∧ (D.take m).getD 2 0 ≠ 2 ∧ (D.take m).getD 2 0 ≠ 3)) := by
      rw [g1, g2]
      rcases hm with h | h | h <;> simp [h]
    have hc4 : (D.take m).length - 5 < (D.take m).getD 3 0 <<< 8 ||| (D.take m).getD 4 0 := by
      rw [hlen, g3, g4, shiftLeft8_lor _ _ (Nat.mod_lt _ (by norm_num)), Nat.div_add_mod]
      omega
    simp only [parseTLSClientHello]
    rw [if_neg (by rw [hlen]; omega : ¬ ((D.take m).length < 5)), if_neg hc2, if_neg hc3,
        if_pos hc4]

/-- C3: SNI round-trip.  For every ClientHello built from the wire layout
(any record version 3.1-3.3, any 32-byte random, any session id, cipher
suites and compression methods whose lengths fit their fields, any
non-SNI extensions before the server_name extension and any extensions
after it), the parser returns exactly the host-name bytes; and every
proper prefix of that byte sequence parses to a short-read error (the
data-too-short or incomplete-record message), never a truncated name. -/
theorem sni_roundtrip (minor : Nat) (random sid cs cm : List Nat)
    (preE postE : List (Nat × List Nat)) (host : List Nat)
    (hm : minor = 1 ∨ minor = 2 ∨ minor = 3)
    (hr : random.length = 32)
    (hsid : sid.length < 256) (hcs : cs.length < 65536) (hcm : cm.length < 256)
    (hhost : host.length < 65536)
    (hrec : 38 + (chBody sid cs cm (chExts preE postE host)).length < 65536)
    (hpre : ∀ e ∈ preE, e.1 ≠ 0 ∧ e.1 < 65536) :
    parseTLSClientHello (mkClientHello minor random sid cs cm preE postE host) =
      .ok host ∧
    ∀ m < (mkClientHello minor random sid cs cm preE postE host).length,
      parseTLSClientHello ((mkClientHello minor random sid cs cm preE postE host).take m) =
        .err ("data too short for TLS handshake") ∨
      parseTLSClientHello ((mkClientHello minor random sid cs cm preE postE host).take m) =
        .err ("incomplete handshake record") :=
  ⟨parse_mkClientHello minor random sid cs cm preE postE host hm hr
     (fun e he => (hpre e he).1),
   fun m hm2 => parse_take_short minor random sid cs cm preE postE host hm hr m hm2⟩

/-- C3 witness: the concrete ClientHello for host name ab parses to
exactly those bytes, and its 20-byte prefix parses to a short-read error.
-/
theorem sni_roundtrip_witness :
    parseTLSClientHello chExample = .ok [97, 98] ∧
    (parseTLSClientHello (chExample.take 20) = .err ("data too short for TLS handshake") ∨
     parseTLSClientHello (chExample.take 20) = .err ("incomplete handshake record")) := by
  have h := sni_roundtrip 1 (List.replicate 32 0) [] [] [] [] [] [97, 98]
    (Or.inl rfl) (by simp) (by decide) (by decide) (by decide) (by decide) (by decide)
    (by intro e he; simp at he)
  exact ⟨h.1, h.2 20 (by decide)⟩
